import Mathlib

/-!
Shallow embedding of the ts-dns configuration loader (`cmd/conf/conf.go`).

Go strings become Lean `String`, Go `int`/`time.Duration` become `Int`
(with explicit 64-bit wrapping where an overflow could occur), Go maps
become association lists in a fixed order, and fallible external effects
(file reads, ipset creation) are supplied by an explicit environment.
`NewHandler` models the run after a successful toml decode; a decode
failure returns `(nil, err)` before any of the modelled code runs.
-/

namespace TsDns

/-! Models of the Go `strings` functions used by `conf.go`, defined by
structural recursion on the character list of a `String` so that every
use evaluates inside the kernel. The affected Go strings are ASCII, so
bytes and characters coincide. -/

/-- Go `strings.HasPrefix s pre`. -/
def goHasPrefix (s pre : String) : Bool := pre.data.isPrefixOf s.data

/-- Go `strings.HasSuffix s suffix`. -/
def goHasSuffix (s suffix : String) : Bool := suffix.data.isSuffixOf s.data

/-- Go `strings.Contains s string(c)` for a one-character needle. -/
def goContains (s : String) (c : Char) : Bool := s.data.contains c

/-- Go slicing `s[:len(s)-n]`. -/
def goDropRight (s : String) (n : Nat) : String := ⟨s.data.take (s.data.length - n)⟩

/-- Go slicing `s[n:]`. -/
def goDropLeft (s : String) (n : Nat) : String := ⟨s.data.drop n⟩

/-- Go `strings.Split` on a one-character separator, on character lists:
empty parts are kept, `split "" = [""]`. -/
def splitOnChar (sep : Char) : List Char → List (List Char)
  | [] => [[]]
  | c :: rest =>
    match splitOnChar sep rest with
    | [] => [[c]]
    | h :: t => if c == sep then [] :: h :: t else (c :: h) :: t

/-- Go `strings.Split s string(sep)` for a one-character separator. -/
def goSplit (s : String) (sep : Char) : List String :=
  (splitOnChar sep s.data).map (fun l => ⟨l⟩)

/-- Go `strings.Join`. -/
def goJoin (sep : String) : List String → String
  | [] => ""
  | [x] => x
  | x :: y :: rest => x ++ sep ++ goJoin sep (y :: rest)

/-- ASCII lowercasing of one character. -/
def charLower (c : Char) : Char :=
  if 'A' ≤ c && c ≤ 'Z' then Char.ofNat (c.toNat + 32) else c

/-- Go `strings.ToLower` (ASCII). -/
def goLower (s : String) : String := ⟨s.data.map charLower⟩

/-- Environment of external effects: `fs` models the file system (a
readable file maps to its content), `ipsetOK` models whether creating a
kernel ipset with the given name succeeds. -/
structure Env where
  fs : String → Option String
  ipsetOK : String → Bool

/-- Structure `Group`: one `[groups.*]` section of the configuration. -/
structure Group where
  Socks5 : String
  IPSet : String
  IPSetTTL : Int
  DNS : List String
  DoT : List String
  DoH : List String
  Concurrent : Bool
  Rules : List String
deriving DecidableEq

/-- Structure `Cache`: the `[cache]` section. -/
structure Cache where
  Size : Int
  MinTTL : Int
  MaxTTL : Int
deriving DecidableEq

/-- Structure `Conf`: the whole configuration file. `Hosts` (a Go map) is an
association list `hostname ↦ ip`; `Groups` is an association list
`name ↦ group`. The Go `Cache` field is a pointer left nil when the
section is absent; the model assumes the section present (every claim's
configuration has one). -/
structure Conf where
  Listen : String
  GFWList : String
  CNIP : String
  HostsFiles : List String
  Hosts : List (String × String)
  Cache : Cache
  Groups : List (String × Group)
deriving DecidableEq

/-- Outbound caller, identified by transport kind, dialed address,
optional DoT server name and optional SOCKS5 dialer address
(`outbound.NewDNSCaller` / `NewDoTCaller` / `NewDoHCaller`). -/
inductive Caller where
  | dns (addr : String) (network : String) (dialer : Option String)
  | dot (addr : String) (serverName : String) (dialer : Option String)
  | doh (url : String) (dialer : Option String)
deriving DecidableEq

/-- The SOCKS5 dialer of a group: present exactly when `Socks5` is
non-empty (`proxy.SOCKS5` with `proxy.Direct` does not fail). -/
def groupDialer (conf : Group) : Option String :=
  if conf.Socks5 ≠ "" then some conf.Socks5 else none

/-- One step of `GenCallers` for a plain-DNS address: strip a `/tcp`
suffix (selecting the TCP transport), skip an empty address, default the
port to `:53` when the address has no `:`. -/
def genDNSCaller (dialer : Option String) (addr : String) : Option Caller :=
  let p := if goHasSuffix addr "/tcp" then (goDropRight addr 4, "tcp") else (addr, "udp")
  if p.1 ≠ "" then
    some (Caller.dns (if goContains p.1 ':' then p.1 else p.1 ++ ":53") p.2 dialer)
  else none

/-- One step of `GenCallers` for a DoT address `ip:port@serverName`:
the address must split on `@` into exactly two parts, both non-empty;
the port defaults to `:853` when the upstream part has no `:`. -/
def genDoTCaller (dialer : Option String) (addr : String) : Option Caller :=
  match goSplit addr '@' with
  | [a, serverName] =>
    if a ≠ "" && serverName ≠ "" then
      some (Caller.dot (if goContains a ':' then a else a ++ ":853") serverName dialer)
    else none
  | _ => none

/-- Helper for the regex `^https://.+/dns-query$` (`.` excludes a
newline in Go's RE2): after the literal head, the rest must be a
non-empty newline-free run followed by the literal `/dns-query`. -/
def dohTail : List Char → Bool
  | [] => false
  | c :: rest =>
    (c != '\n') && (rest == "/dns-query".data || dohTail rest)

/-- Model of `regexp.MustCompile('^https://.+/dns-query$').MatchString addr`. -/
def dohRegexMatch (addr : String) : Bool :=
  "https://".data.isPrefixOf addr.data && dohTail (addr.data.drop 8)

/-- One step of `GenCallers` for a DoH address: generated exactly when
the regex matches. -/
def genDoHCaller (dialer : Option String) (addr : String) : Option Caller :=
  if dohRegexMatch addr then some (Caller.doh addr dialer) else none

/-- Method `Group.GenCallers`: plain-DNS callers, then DoT callers, then DoH
callers, each list in configuration order with unusable entries
skipped. -/
def Group.GenCallers (conf : Group) : List Caller :=
  let dialer := groupDialer conf
  conf.DNS.filterMap (genDNSCaller dialer) ++
    conf.DoT.filterMap (genDoTCaller dialer) ++
    conf.DoH.filterMap (genDoHCaller dialer)

/-- Kernel ipset handle (`ipset.New(name, "hash:ip", {Timeout: ttl})`). -/
structure IPSetHandle where
  name : String
  timeout : Int
deriving DecidableEq

/-- Method `Group.GenIPSet`: no handle for an empty name; otherwise creation
may fail in the environment, which is an error. -/
def Group.GenIPSet (env : Env) (conf : Group) : Except Unit (Option IPSetHandle) :=
  if conf.IPSet ≠ "" then
    if env.ipsetOK conf.IPSet then Except.ok (some ⟨conf.IPSet, conf.IPSetTTL⟩)
    else Except.error ()
  else Except.ok none

/-- Method `Conf.SetDefault`: fill `Listen`, `GFWList`, `CNIP` when empty. -/
def Conf.SetDefault (conf : Conf) : Conf :=
  { conf with
    Listen := if conf.Listen = "" then ":53" else conf.Listen,
    GFWList := if conf.GFWList = "" then "gfwlist.txt" else conf.GFWList,
    CNIP := if conf.CNIP = "" then "cnip.txt" else conf.CNIP }

/-- Wrap an integer to Go's 64-bit signed range (two's complement). -/
def goInt64 (x : Int) : Int := (x + 2 ^ 63) % 2 ^ 64 - 2 ^ 63

/-- Go `time.Duration(x) * time.Second`: seconds to nanoseconds with
64-bit wrap-around. -/
def durationSeconds (x : Int) : Int := goInt64 (x * 1000000000)

/-- One stored cache entry. Modelled from the spec: the `cache` package
is not under `src/`; per the spec a cached value carries an absolute
expiry instant. Responses are abstracted to an opaque `Nat` id. -/
structure CacheEntry where
  key : String
  value : Nat
  expiry : Int
deriving DecidableEq

/-- Modelled from the spec: `cache.DNSCache` (not under `src/`) holds a
capacity, TTL bounds (as durations in nanoseconds) and the live
entries, newest first. -/
structure DNSCache where
  size : Int
  minTTL : Int
  maxTTL : Int
  entries : List CacheEntry
deriving DecidableEq

/-- Modelled from the spec: `cache.NewDNSCache` starts empty. -/
def NewDNSCache (size minTTL maxTTL : Int) : DNSCache :=
  ⟨size, minTTL, maxTTL, []⟩

/-- Modelled from the spec: clamp an origin TTL into `[minTTL, maxTTL]`. -/
def DNSCache.clampTTL (c : DNSCache) (ttl : Int) : Int :=
  min (max ttl c.minTTL) c.maxTTL

/-- Modelled from the spec: `Set` is a no-op on a non-positive size;
otherwise it overwrites the key's entry with expiry
`now + clamp(ttl)` and keeps at most `size` entries (oldest evicted). -/
def DNSCache.Set (c : DNSCache) (now : Int) (k : String) (v : Nat) (ttl : Int) : DNSCache :=
  if c.size ≤ 0 then c
  else
    { c with
      entries :=
        (⟨k, v, now + c.clampTTL ttl⟩ :: c.entries.filter (fun e => e.key ≠ k)).take
          c.size.toNat }

/-- Modelled from the spec: `Get` always misses on a non-positive size;
otherwise an absent or expired entry is a miss. -/
def DNSCache.Get (c : DNSCache) (now : Int) (k : String) : Option Nat :=
  if c.size ≤ 0 then none
  else
    match c.entries.find? (fun e => e.key == k) with
    | some e => if now < e.expiry then some e.value else none
    | none => none

/-- Method `Conf.GenCache`: replace each parameter that is exactly zero by its
default (4096 / 60 s / 86400 s), convert the TTLs to durations, build
the cache. -/
def Conf.GenCache (conf : Conf) : DNSCache :=
  let size := if conf.Cache.Size = 0 then 4096 else conf.Cache.Size
  let minTTL := if conf.Cache.MinTTL = 0 then 60 else conf.Cache.MinTTL
  let maxTTL := if conf.Cache.MaxTTL = 0 then 86400 else conf.Cache.MaxTTL
  NewDNSCache size (durationSeconds minTTL) (durationSeconds maxTTL)

/-- A hosts source: inline text or a successfully read file
(`hosts.NewReaderByText` / `hosts.NewReaderByFile`). -/
inductive HostsReader where
  | text (content : String)
  | file (filename : String) (content : String)
deriving DecidableEq

/-- Modelled from the spec: `hosts.NewReaderByText` (not under `src/`)
wraps inline hosts text. -/
def NewReaderByText (text : String) : HostsReader := HostsReader.text text

/-- Modelled from the spec: `hosts.NewReaderByFile` (not under `src/`)
fails exactly when the file cannot be read; `reloadTick = 0` means no
automatic reload and does not affect construction. -/
def NewReaderByFile (fs : String → Option String) (filename : String)
    (reloadTick : Int) : Option HostsReader :=
  (fs filename).map (HostsReader.file filename)

/-- Method `Conf.GenHostsReader`: one text reader for the inline hosts map
(when non-empty, one `ip hostname` line per entry), then one reader per
readable hosts file; an unreadable file is logged and skipped. -/
def Conf.GenHostsReader (fs : String → Option String) (conf : Conf) : List HostsReader :=
  (if 0 < (conf.Hosts.map (fun p => p.2 ++ " " ++ p.1)).length
   then [NewReaderByText (goJoin "\n" (conf.Hosts.map (fun p => p.2 ++ " " ++ p.1)))]
   else []) ++
    conf.HostsFiles.filterMap (fun filename => NewReaderByFile fs filename 0)

/-- ABP-style domain matcher. Modelled from the spec: the `matcher`
package is not under `src/`; a matcher is its rule list. -/
structure ABPMatcher where
  rules : List String
deriving DecidableEq

/-- Modelled from the spec: a usable rule line is non-blank and not a
comment. -/
def abpLineOK (line : String) : Bool :=
  line ≠ "" && !goHasPrefix line "!" && !goHasPrefix line "["

/-- Modelled from the spec: `matcher.NewABPByText` parses one rule per
line, skipping comments and blank lines. -/
def NewABPByText (text : String) : ABPMatcher :=
  ⟨(goSplit text '\n').filter abpLineOK⟩

/-- Modelled from the spec: `matcher.NewABPByFile` reads the rule file
(failing when unreadable) and parses it as rule text. -/
def NewABPByFile (fs : String → Option String) (filename : String)
    (b64 : Bool) : Option ABPMatcher :=
  (fs filename).map NewABPByText

/-- Modelled from the spec: queried domains are case-normalized and
trailing-dot-insensitive. -/
def normalizeDomain (d : String) : String :=
  goLower (if goHasSuffix d "." then goDropRight d 1 else d)

/-- Modelled from the spec: a plain rule matches the domain and its
subdomains; a leading `.` or `*.` rule matches only strict
subdomains. -/
def ruleBaseMatch (rule d : String) : Bool :=
  if goHasPrefix rule "*." then goHasSuffix d (goDropLeft rule 1)
  else if goHasPrefix rule "." then goHasSuffix d rule
  else d == rule || goHasSuffix d ("." ++ rule)

/-- Modelled from the spec: first matching rule wins; an `@@` exclusion
rule negates its match. -/
def matchRules : List String → String → Bool
  | [], _ => false
  | r :: rs, d =>
    if goHasPrefix r "@@" then
      if ruleBaseMatch (goDropLeft r 2) d then false else matchRules rs d
    else if ruleBaseMatch r d then true else matchRules rs d

/-- Modelled from the spec: `Match(domain)` of the ABP matcher. -/
def ABPMatcher.Match (m : ABPMatcher) (domain : String) : Bool :=
  matchRules m.rules (normalizeDomain domain)

/-- In-memory CIDR membership set (`cache.NewRamSetByFile` result),
kept as its source text; membership queries are outside this model. -/
structure RamSet where
  text : String
deriving DecidableEq

/-- Modelled from the spec: `cache.NewRamSetByFile` fails exactly when
the CIDR list file cannot be read. -/
def NewRamSetByFile (fs : String → Option String) (filename : String) : Option RamSet :=
  (fs filename).map RamSet.mk

/-- Structure `inbound.Group`: one routing group of the handler. -/
structure InboundGroup where
  Callers : List Caller
  Concurrent : Bool
  Matcher : ABPMatcher
  IPSet : Option IPSetHandle
deriving DecidableEq

/-- Structure `inbound.Handler` (the `Mux` lock carries no data and is omitted). -/
structure Handler where
  Listen : String
  GFWMatcher : ABPMatcher
  CNIP : RamSet
  HostsReaders : List HostsReader
  Cache : DNSCache
  Groups : List (String × InboundGroup)
deriving DecidableEq

/-- Go map indexing on an association list with unique keys. -/
def lookupG {α : Type} : List (String × α) → String → Option α
  | [], _ => none
  | (n, v) :: rest, k => if n = k then some v else lookupG rest k

/-- The routing group `NewHandler` builds for one configuration group
when its ipset creation does not fail: callers, concurrency flag, and a
matcher built from the group's inline rules joined by newlines. -/
def buildInboundGroup (g : Group) : InboundGroup :=
  { Callers := g.GenCallers, Concurrent := g.Concurrent,
    Matcher := NewABPByText (goJoin "\n" g.Rules),
    IPSet := if g.IPSet ≠ "" then some ⟨g.IPSet, g.IPSetTTL⟩ else none }

/-- The group-building loop of `NewHandler`: builds every group in
order, stopping with an error on the first failing ipset creation. -/
def buildGroups (env : Env) : List (String × Group) → Except Unit (List (String × InboundGroup))
  | [] => Except.ok []
  | (name, g) :: rest =>
    match g.GenIPSet env with
    | Except.error e => Except.error e
    | Except.ok ipSet =>
      match buildGroups env rest with
      | Except.error e => Except.error e
      | Except.ok built =>
        Except.ok ((name, { Callers := g.GenCallers, Concurrent := g.Concurrent,
                            Matcher := NewABPByText (goJoin "\n" g.Rules),
                            IPSet := ipSet }) :: built)

/-- Outcome of `NewHandler`: a handler, an error return `(nil, err)`,
or a runtime panic (nil-pointer dereference). -/
inductive Outcome (α : Type) where
  | ok (val : α)
  | err
  | panic
deriving DecidableEq

/-- Success/error/panic view of an outcome. -/
inductive RunStatus where
  | ok
  | err
  | panic
deriving DecidableEq

/-- The status of an outcome, forgetting the built value. -/
def Outcome.status {α : Type} : Outcome α → RunStatus
  | Outcome.ok _ => RunStatus.ok
  | Outcome.err => RunStatus.err
  | Outcome.panic => RunStatus.panic

/-- The value of a successful outcome. -/
def Outcome.toOption {α : Type} : Outcome α → Option α
  | Outcome.ok v => some v
  | _ => none

/-- Function `NewHandler` after a successful toml decode: apply defaults, read
the deny-list and the CN-IP list (either failing is an error return),
collect hosts readers and the cache, build every group (a failing ipset
creation is an error return), then check validity: an empty group map
is an error return; otherwise `Groups["clean"].Callers` and
`Groups["dirty"].Callers` are inspected, which dereferences a nil
pointer — a panic — when that group is absent, and zero callers in
either is an error return. -/
def NewHandler (env : Env) (conf : Conf) : Outcome Handler :=
  match NewABPByFile env.fs (conf.SetDefault).GFWList true with
  | none => Outcome.err
  | some gfwMatcher =>
    match NewRamSetByFile env.fs (conf.SetDefault).CNIP with
    | none => Outcome.err
    | some cnip =>
      match buildGroups env (conf.SetDefault).Groups with
      | Except.error _ => Outcome.err
      | Except.ok groups =>
        if groups.length ≤ 0 then Outcome.err
        else
          match lookupG groups "clean" with
          | none => Outcome.panic
          | some cleanGroup =>
            if cleanGroup.Callers.length ≤ 0 then Outcome.err
            else
              match lookupG groups "dirty" with
              | none => Outcome.panic
              | some dirtyGroup =>
                if dirtyGroup.Callers.length ≤ 0 then Outcome.err
                else
                  Outcome.ok
                    { Listen := (conf.SetDefault).Listen, GFWMatcher := gfwMatcher,
                      CNIP := cnip,
                      HostsReaders := (conf.SetDefault).GenHostsReader env.fs,
                      Cache := (conf.SetDefault).GenCache, Groups := groups }

/-- A group section with every field at its zero value. -/
def gEmpty : Group := ⟨"", "", 0, [], [], [], false, []⟩

/-- A minimal usable "clean" group. -/
def gClean : Group := { gEmpty with DNS := ["1.1.1.1"] }

/-- A minimal usable "dirty" group. -/
def gDirty : Group := { gEmpty with DNS := ["8.8.8.8"] }

/-- A custom group with zero callers. -/
def gWork : Group := { gEmpty with Rules := ["company.com"] }

/-- Cache section with the documented defaults. -/
def cacheDefault : Cache := ⟨4096, 60, 86400⟩

/-- A complete valid configuration. -/
def confBase : Conf :=
  ⟨":53", "gfwlist.txt", "cnip.txt", [], [], cacheDefault,
    [("clean", gClean), ("dirty", gDirty)]⟩

/-- An environment where every file read yields the one-rule deny-list
`example.com` and every ipset creation succeeds. -/
def envAll : Env := ⟨fun _ => some "example.com", fun _ => true⟩

/-- A configuration whose group map is non-empty but lacks "dirty". -/
def confMissingDirty : Conf := { confBase with Groups := [("clean", gClean)] }

/-- A configuration with a cache size of exactly 0. -/
def confCacheZero : Conf := { confBase with Cache := ⟨0, 60, 86400⟩ }

/-- A configuration with a negative cache size. -/
def confCacheNeg : Conf := { confBase with Cache := ⟨-1, 60, 86400⟩ }

/-- A configuration exercising both defaulted and negative cache
parameters. -/
def confCacheMix : Conf := { confBase with Cache := ⟨0, -5, 0⟩ }

/-- A valid configuration with an extra custom group that has zero
callers. -/
def confWork : Conf :=
  { confBase with Groups := [("clean", gClean), ("dirty", gDirty), ("work", gWork)] }

/-- The handler `NewHandler` builds from `envAll` and `confBase`. -/
def handlerBase : Handler :=
  { Listen := ":53", GFWMatcher := NewABPByText "example.com",
    CNIP := ⟨"example.com"⟩, HostsReaders := [],
    Cache := ⟨4096, 60000000000, 86400000000000, []⟩,
    Groups := [("clean", buildInboundGroup gClean), ("dirty", buildInboundGroup gDirty)] }

/-- A configuration with an inline hosts entry and two hosts files. -/
def confHosts : Conf :=
  { confBase with Hosts := [("example.com", "8.8.8.8")],
                  HostsFiles := ["/etc/hosts", "goodhosts"] }

/-- A file system where the deny-list and CN-IP list are readable,
`goodhosts` is readable, and everything else (notably `/etc/hosts`)
fails to read. -/
def fsHosts : String → Option String := fun f =>
  if f = "gfwlist.txt" then some "example.com"
  else if f = "cnip.txt" then some "1.0.0.0/8"
  else if f = "goodhosts" then some "1.2.3.4 host" else none

/-- An environment where every hosts file is readable. -/
def envHostsA : Env :=
  ⟨fun f =>
    if f = "gfwlist.txt" then some "example.com"
    else if f = "cnip.txt" then some "1.0.0.0/8"
    else some "1.2.3.4 host", fun _ => true⟩

/-- An environment agreeing with `envHostsA` on the deny-list and CN-IP
paths, in which every hosts file read fails. -/
def envHostsB : Env :=
  ⟨fun f =>
    if f = "gfwlist.txt" then some "example.com"
    else if f = "cnip.txt" then some "1.0.0.0/8"
    else none, fun _ => true⟩

/-! Helper lemmas. -/

theorem lookupG_map {α β : Type} (l : List (String × α)) (f : α → β) (k : String) :
    lookupG (l.map (fun p => (p.1, f p.2))) k = (lookupG l k).map f := by
  induction l with
  | nil => rfl
  | cons hd tl ih =>
    obtain ⟨n, v⟩ := hd
    simp only [List.map_cons, lookupG]
    split
    · rfl
    · exact ih

theorem lookupG_mem {α : Type} {l : List (String × α)} {k : String} {v : α}
    (h : (k, v) ∈ l) : ∃ w, lookupG l k = some w := by
  induction l with
  | nil => cases h
  | cons hd tl ih =>
    obtain ⟨n, w⟩ := hd
    rcases List.mem_cons.mp h with heq | hmem
    · refine ⟨w, ?_⟩
      have hk : n = k := (congrArg Prod.fst heq).symm
      simp only [lookupG]
      rw [if_pos hk]
    · simp only [lookupG]
      split
      · exact ⟨w, rfl⟩
      · exact ih hmem

theorem lookupG_ne_nil {α : Type} {l : List (String × α)} {k : String} {v : α}
    (h : lookupG l k = some v) : l ≠ [] := by
  intro hnil
  subst hnil
  cases h

theorem buildGroups_congr (env env2 : Env) (h : ∀ n, env.ipsetOK n = env2.ipsetOK n)
    (l : List (String × Group)) : buildGroups env l = buildGroups env2 l := by
  induction l with
  | nil => rfl
  | cons hd tl ih =>
    obtain ⟨n, g⟩ := hd
    simp only [buildGroups, Group.GenIPSet, h, ih]

theorem buildGroups_ok (env : Env) (l : List (String × Group))
    (h : ∀ p ∈ l, p.2.IPSet ≠ "" → env.ipsetOK p.2.IPSet = true) :
    buildGroups env l = Except.ok (l.map (fun p => (p.1, buildInboundGroup p.2))) := by
  induction l with
  | nil => rfl
  | cons hd tl ih =>
    obtain ⟨n, g⟩ := hd
    have htl : ∀ p ∈ tl, p.2.IPSet ≠ "" → env.ipsetOK p.2.IPSet = true :=
      fun p hp => h p (List.mem_cons_of_mem _ hp)
    simp only [buildGroups, Group.GenIPSet, List.map_cons]
    by_cases hip : g.IPSet = ""
    · simp [hip, ih htl, buildInboundGroup]
    · have hok := h (n, g) (List.mem_cons_self ..) hip
      simp [hip, hok, ih htl, buildInboundGroup]

theorem buildGroups_ok_eq {env : Env} {l : List (String × Group)}
    {bl : List (String × InboundGroup)} (h : buildGroups env l = Except.ok bl) :
    bl = l.map (fun p => (p.1, buildInboundGroup p.2)) := by
  induction l generalizing bl with
  | nil => cases h; rfl
  | cons hd tl ih =>
    obtain ⟨n, g⟩ := hd
    simp only [buildGroups] at h
    split at h
    · cases h
    · split at h
      · cases h
      · next ipSet hip _ built hbuilt =>
        cases h
        simp only [List.map_cons, List.cons.injEq]
        refine ⟨?_, ih hbuilt⟩
        simp only [Group.GenIPSet] at hip
        split at hip
        · split at hip
          · cases hip
            simp_all [buildInboundGroup]
          · cases hip
        · cases hip
          simp_all [buildInboundGroup]

/-! Claim theorems. -/

/-- C1: the claim says a configuration missing the "dirty" group makes
`NewHandler` return a nil handler and a non-nil error. On a
configuration whose group map is non-empty but lacks "dirty", the
validity check dereferences the nil entry `Groups["dirty"]` and the
code panics instead of returning an error. -/
theorem NewHandler_missing_dirty_panics :
    lookupG confMissingDirty.Groups "dirty" = none ∧
    NewHandler envAll confMissingDirty = Outcome.panic ∧
    NewHandler envAll confMissingDirty ≠ Outcome.err := by
  refine ⟨by decide, by decide, by decide⟩

/-- C2 counterexample: with a configured cache size of exactly 0 (a
non-positive size), the cache `GenCache` produces is not disabled: a
`Set` followed by a `Get` succeeds, so `Get` does not always miss and
`Set` is not a no-op. -/
theorem GenCache_size_zero_enabled_cex :
    confCacheZero.Cache.Size = 0 ∧
    ((confCacheZero.GenCache).Set 0 "k" 1 300000000000).Get 0 "k" = some 1 ∧
    (confCacheZero.GenCache).Set 0 "k" 1 300000000000 ≠ confCacheZero.GenCache := by
  refine ⟨by decide, by decide, by decide⟩

/-- C2 amended: for every configuration whose cache size is negative,
the cache produced by `GenCache` is disabled entirely: `Get` always
misses and `Set` is a no-op. (A configured size of exactly 0 is
replaced by the default 4096, which enables caching.) -/
theorem GenCache_negative_size_disables (conf : Conf) (h : conf.Cache.Size < 0) :
    (∀ now k, (conf.GenCache).Get now k = none) ∧
    (∀ now k v ttl, (conf.GenCache).Set now k v ttl = conf.GenCache) := by
  have hsize : (conf.GenCache).size = conf.Cache.Size := by
    unfold Conf.GenCache NewDNSCache
    simp [Int.ne_of_lt h]
  have hle : (conf.GenCache).size ≤ 0 := hsize ▸ le_of_lt h
  constructor
  · intro now k
    unfold DNSCache.Get
    rw [if_pos hle]
  · intro now k v ttl
    unfold DNSCache.Set
    rw [if_pos hle]

/-- C2 witness: the negative-size case at a concrete configuration. -/
theorem GenCache_negative_size_disables_witness :
    (confCacheNeg.GenCache).Get 0 "k" = none ∧
    (confCacheNeg.GenCache).Set 0 "k" 1 5 = confCacheNeg.GenCache :=
  ⟨(GenCache_negative_size_disables confCacheNeg (by decide)).1 0 "k",
   (GenCache_negative_size_disables confCacheNeg (by decide)).2 0 "k" 1 5⟩

/-- C9: `GenCache` replaces each cache parameter that is exactly zero
by its default — size 0 becomes 4096, min_ttl 0 becomes 60 seconds,
max_ttl 0 becomes 86400 seconds — while any non-zero (including
negative) configured value is passed through unchanged into the
duration conversion. -/
theorem GenCache_defaults_iff_zero (conf : Conf) :
    ((conf.Cache.Size = 0 → (conf.GenCache).size = 4096) ∧
     (conf.Cache.Size ≠ 0 → (conf.GenCache).size = conf.Cache.Size)) ∧
    ((conf.Cache.MinTTL = 0 → (conf.GenCache).minTTL = durationSeconds 60) ∧
     (conf.Cache.MinTTL ≠ 0 → (conf.GenCache).minTTL = durationSeconds conf.Cache.MinTTL)) ∧
    ((conf.Cache.MaxTTL = 0 → (conf.GenCache).maxTTL = durationSeconds 86400) ∧
     (conf.Cache.MaxTTL ≠ 0 → (conf.GenCache).maxTTL = durationSeconds conf.Cache.MaxTTL)) := by
  unfold Conf.GenCache NewDNSCache
  refine ⟨⟨?_, ?_⟩, ⟨?_, ?_⟩, ⟨?_, ?_⟩⟩ <;> intro h <;> simp [h]

/-- C9 witness: zero parameters are defaulted (60 s = 6e10 ns,
86400 s = 8.64e13 ns) and a negative parameter is passed through. -/
theorem GenCache_defaults_iff_zero_witness :
    (confCacheMix.GenCache).size = 4096 ∧
    (confCacheMix.GenCache).minTTL = durationSeconds (-5) ∧
    (confCacheMix.GenCache).maxTTL = durationSeconds 86400 ∧
    durationSeconds (-5) = -5000000000 ∧ durationSeconds 86400 = 86400000000000 :=
  ⟨(GenCache_defaults_iff_zero confCacheMix).1.1 rfl,
   (GenCache_defaults_iff_zero confCacheMix).2.1.2 (by decide),
   (GenCache_defaults_iff_zero confCacheMix).2.2.1 rfl,
   by decide, by decide⟩

/-- C10: `SetDefault` changes only the `Listen`, `GFWList` and `CNIP`
fields, and only when they are the empty string (to ":53",
"gfwlist.txt" and "cnip.txt" respectively); every other field is
unchanged, and `SetDefault` is idempotent. -/
theorem SetDefault_only_empty_fields_idem (conf : Conf) :
    ((conf.SetDefault).HostsFiles = conf.HostsFiles ∧
     (conf.SetDefault).Hosts = conf.Hosts ∧
     (conf.SetDefault).Cache = conf.Cache ∧
     (conf.SetDefault).Groups = conf.Groups) ∧
    ((conf.Listen = "" → (conf.SetDefault).Listen = ":53") ∧
     (conf.Listen ≠ "" → (conf.SetDefault).Listen = conf.Listen)) ∧
    ((conf.GFWList = "" → (conf.SetDefault).GFWList = "gfwlist.txt") ∧
     (conf.GFWList ≠ "" → (conf.SetDefault).GFWList = conf.GFWList)) ∧
    ((conf.CNIP = "" → (conf.SetDefault).CNIP = "cnip.txt") ∧
     (conf.CNIP ≠ "" → (conf.SetDefault).CNIP = conf.CNIP)) ∧
    conf.SetDefault.SetDefault = conf.SetDefault := by
  unfold Conf.SetDefault
  refine ⟨⟨rfl, rfl, rfl, rfl⟩, ⟨?_, ?_⟩, ⟨?_, ?_⟩, ⟨?_, ?_⟩, ?_⟩
  · intro h; simp [h]
  · intro h; simp [h]
  · intro h; simp [h]
  · intro h; simp [h]
  · intro h; simp [h]
  · intro h; simp [h]
  · by_cases h1 : conf.Listen = "" <;> by_cases h2 : conf.GFWList = "" <;>
      by_cases h3 : conf.CNIP = "" <;> simp [h1, h2, h3]

/-- C10 witness: the empty fields of a blank configuration are filled
and the rest is untouched. -/
theorem SetDefault_only_empty_fields_idem_witness :
    (({ confBase with Listen := "" } : Conf).SetDefault).Listen = ":53" ∧
    (({ confBase with Listen := "" } : Conf).SetDefault).GFWList = "gfwlist.txt" ∧
    (({ confBase with Listen := "" } : Conf).SetDefault).Groups = confBase.Groups :=
  ⟨(SetDefault_only_empty_fields_idem { confBase with Listen := "" }).2.1.1 rfl,
   (SetDefault_only_empty_fields_idem { confBase with Listen := "" }).2.2.1.2 (by decide),
   (SetDefault_only_empty_fields_idem { confBase with Listen := "" }).1.2.2.2⟩

/-- C4: a plain-DNS caller generated from an address of a group's DNS
list belongs to the group's callers, uses the TCP transport exactly
when the address ends with "/tcp" (the suffix being stripped from the
dialed address) and UDP otherwise, and dials the address with ":53"
appended when it contains no ":". -/
theorem dns_caller_tcp_suffix (conf : Group) (addr : String) (c : Caller)
    (hmem : addr ∈ conf.DNS) (hgen : genDNSCaller (groupDialer conf) addr = some c) :
    c ∈ conf.GenCallers ∧
    c = Caller.dns
          ((fun a => if goContains a ':' then a else a ++ ":53")
            (if goHasSuffix addr "/tcp" then goDropRight addr 4 else addr))
          (if goHasSuffix addr "/tcp" then "tcp" else "udp")
          (groupDialer conf) := by
  constructor
  · unfold Group.GenCallers
    exact List.mem_append_left _
      (List.mem_append_left _ (List.mem_filterMap.mpr ⟨addr, hmem, hgen⟩))
  · unfold genDNSCaller at hgen
    by_cases hs : goHasSuffix addr "/tcp" = true <;>
      simp [hs] at hgen ⊢ <;> exact hgen.2.symm

/-- C4 witness: a UDP caller on the default port from a bare address. -/
theorem dns_caller_tcp_suffix_witness :
    Caller.dns "1.1.1.1:53" "udp" none ∈ gClean.GenCallers :=
  (dns_caller_tcp_suffix gClean "1.1.1.1" (Caller.dns "1.1.1.1:53" "udp" none)
    (by decide) (by decide)).1

/-- C5: a DoT caller is generated from an address exactly when it
splits on "@" into exactly two non-empty parts, the upstream address
and the peer server name; ":853" is appended when the upstream address
contains no ":", and an entry without a server name yields no
caller. -/
theorem dot_caller_split_at_sign (conf : Group) (addr : String) :
    (∀ c, genDoTCaller (groupDialer conf) addr = some c →
       ∃ a s, goSplit addr '@' = [a, s] ∧ a ≠ "" ∧ s ≠ "" ∧
         c = Caller.dot (if goContains a ':' then a else a ++ ":853") s (groupDialer conf) ∧
         (addr ∈ conf.DoT → c ∈ conf.GenCallers)) ∧
    (∀ a s, goSplit addr '@' = [a, s] → a ≠ "" → s ≠ "" →
       genDoTCaller (groupDialer conf) addr ≠ none) := by
  constructor
  · intro c hc
    have hc0 := hc
    unfold genDoTCaller at hc
    split at hc
    · next a s heq =>
      split at hc
      · next hcond =>
        obtain ⟨ha, hs⟩ := by simpa using hcond
        cases hc
        refine ⟨a, s, heq, ha, hs, rfl, ?_⟩
        intro hmem
        unfold Group.GenCallers
        exact List.mem_append_left _
          (List.mem_append_right _ (List.mem_filterMap.mpr ⟨addr, hmem, hc0⟩))
      · cases hc
    · cases hc
  · intro a s hsp ha hs
    unfold genDoTCaller
    rw [hsp]
    simp [ha, hs]

/-- C5 witness: a DoT caller from `host@serverName` with the default
port appended. -/
theorem dot_caller_split_at_sign_witness :
    genDoTCaller (groupDialer gDirty) "1.0.0.1@cloudflare-dns.com" ≠ none :=
  (dot_caller_split_at_sign gDirty "1.0.0.1@cloudflare-dns.com").2
    "1.0.0.1" "cloudflare-dns.com" (by decide) (by decide) (by decide)

theorem dohTail_iff (r : List Char) :
    dohTail r = true ↔
      ∃ m, r = m ++ "/dns-query".data ∧ m ≠ [] ∧ ∀ ch ∈ m, ch ≠ '\n' := by
  induction r with
  | nil =>
    simp only [dohTail]
    constructor
    · intro h
      exact absurd h (by decide)
    · rintro ⟨m, hm, hmne, _⟩
      exact absurd (List.append_eq_nil.mp hm.symm).1 hmne
  | cons c rest ih =>
    simp only [dohTail, Bool.and_eq_true, Bool.or_eq_true, beq_iff_eq, bne_iff_ne, ih]
    constructor
    · rintro ⟨hc, hrest | ⟨m, rfl, _, hnl⟩⟩
      · exact ⟨[c], by simp [hrest], by simp, by simpa using hc⟩
      · refine ⟨c :: m, by simp, by simp, ?_⟩
        intro ch hch
        rcases List.mem_cons.mp hch with rfl | hch2
        · exact hc
        · exact hnl ch hch2
    · rintro ⟨m, hm, hmne, hnl⟩
      cases m with
      | nil => exact absurd rfl hmne
      | cons b m2 =>
        rw [List.cons_append] at hm
        obtain ⟨rfl, h2⟩ := List.cons.injEq .. ▸ hm
        refine ⟨hnl c (by simp), ?_⟩
        cases m2 with
        | nil => exact Or.inl (by simpa using h2)
        | cons b2 m3 =>
          exact Or.inr ⟨b2 :: m3, h2, by simp, fun ch hch => hnl ch (by simp [hch])⟩

/-- C6: a DoH caller is generated from an address if and only if the
address matches `^https://.+/dns-query$` — it decomposes as `https://`,
then a non-empty newline-free middle, then `/dns-query` — and the
generated caller carries the address as its URL. -/
theorem doh_caller_iff_url_shape (dialer : Option String) (addr : String) :
    ((∃ c, genDoHCaller dialer addr = some c) ↔
      (∃ m, addr.data = "https://".data ++ m ++ "/dns-query".data ∧ m ≠ [] ∧
        ∀ ch ∈ m, ch ≠ '\n')) ∧
    (∀ c, genDoHCaller dialer addr = some c → c = Caller.doh addr dialer) := by
  have hlen : ("https://".data).length = 8 := by decide
  constructor
  · constructor
    · rintro ⟨c, hc⟩
      unfold genDoHCaller at hc
      by_cases hm2 : dohRegexMatch addr = true
      case neg => simp [hm2] at hc
      unfold dohRegexMatch at hm2
      rw [Bool.and_eq_true] at hm2
      obtain ⟨hp, ht⟩ := hm2
      obtain ⟨t, ht2⟩ := List.isPrefixOf_iff_prefix.mp hp
      have hdrop : addr.data.drop 8 = t := by
        rw [← ht2, ← hlen, List.drop_left]
      rw [hdrop] at ht
      obtain ⟨m, hm, hmne, hnl⟩ := (dohTail_iff t).mp ht
      exact ⟨m, by rw [← ht2, hm, List.append_assoc], hmne, hnl⟩
    · rintro ⟨m, hm, hmne, hnl⟩
      refine ⟨Caller.doh addr dialer, ?_⟩
      unfold genDoHCaller
      have hmatch : dohRegexMatch addr = true := by
        unfold dohRegexMatch
        rw [Bool.and_eq_true]
        refine ⟨?_, ?_⟩
        · exact List.isPrefixOf_iff_prefix.mpr
            ⟨m ++ "/dns-query".data, by rw [hm, List.append_assoc]⟩
        · have hdrop : addr.data.drop 8 = m ++ "/dns-query".data := by
            rw [hm, List.append_assoc, ← hlen, List.drop_left]
          rw [hdrop]
          exact (dohTail_iff _).mpr ⟨m, rfl, hmne, hnl⟩
      rw [if_pos hmatch]
  · intro c hc
    unfold genDoHCaller at hc
    by_cases hm2 : dohRegexMatch addr = true <;> simp [hm2] at hc
    exact hc.symm

/-- C6 witness: the conventional Cloudflare DoH URL decomposes as the
regex requires. -/
theorem doh_caller_iff_url_shape_witness :
    ∃ m, ("https://cloudflare-dns.com/dns-query").data =
        "https://".data ++ m ++ "/dns-query".data ∧ m ≠ [] ∧ ∀ ch ∈ m, ch ≠ '\n' :=
  (doh_caller_iff_url_shape none "https://cloudflare-dns.com/dns-query").1.mp
    ⟨Caller.doh "https://cloudflare-dns.com/dns-query" none, by decide⟩

/-- C3 counterexample: with a deny-list consisting of the single rule
`example.com` and a "clean" group with no inline rules, `NewHandler`
succeeds, the handler's global deny-list matcher matches `example.com`,
but the "clean" group's own matcher does not — a domain present only in
the imported deny-list is not matched by the group's matcher. -/
theorem group_matcher_ignores_denylist_cex :
    envAll.fs (confBase.SetDefault).GFWList = some "example.com" ∧
    gClean.Rules = [] ∧
    NewHandler envAll confBase = Outcome.ok handlerBase ∧
    handlerBase.GFWMatcher.Match "example.com" = true ∧
    (lookupG handlerBase.Groups "clean").map (fun g => g.Matcher.Match "example.com") =
      some false := by
  refine ⟨rfl, rfl, by decide, by decide, by decide⟩

/-- C3 amended: each routing group's matcher is built from that group's
inline rule list alone (joined by newlines); the imported deny-list is
parsed into the handler's separate global matcher and is not merged
into any group's rule set. -/
theorem group_matcher_inline_rules_only (env : Env) (conf : Conf) (h : Handler)
    (hok : NewHandler env conf = Outcome.ok h) :
    (∃ content, env.fs (conf.SetDefault).GFWList = some content ∧
        h.GFWMatcher = NewABPByText content) ∧
    (∀ name ig, lookupG h.Groups name = some ig →
        ∃ g, lookupG conf.Groups name = some g ∧
          ig.Matcher = NewABPByText (goJoin "\n" g.Rules)) := by
  unfold NewHandler at hok
  split at hok
  · cases hok
  · next gfwMatcher hgfw =>
    split at hok
    · cases hok
    · next cnip hcnip =>
      split at hok
      · cases hok
      · next groups hbuild =>
        split at hok
        · cases hok
        · split at hok
          · cases hok
          · next cleanGroup hlclean =>
            split at hok
            · cases hok
            · split at hok
              · cases hok
              · next dirtyGroup hldirty =>
                split at hok
                · cases hok
                · injection hok with hh
                  subst hh
                  constructor
                  · unfold NewABPByFile at hgfw
                    cases hfs : env.fs (conf.SetDefault).GFWList with
                    | none => rw [hfs] at hgfw; cases hgfw
                    | some t =>
                      rw [hfs] at hgfw
                      refine ⟨t, rfl, ?_⟩
                      have ht : NewABPByText t = gfwMatcher := by simpa using hgfw
                      exact ht.symm
                  · intro name ig hlg
                    have hbl := buildGroups_ok_eq hbuild
                    rw [hbl, lookupG_map] at hlg
                    have hG : (conf.SetDefault).Groups = conf.Groups := rfl
                    rw [hG] at hlg
                    cases hcg : lookupG conf.Groups name with
                    | none => rw [hcg] at hlg; cases hlg
                    | some g =>
                      rw [hcg] at hlg
                      refine ⟨g, rfl, ?_⟩
                      have hig : buildInboundGroup g = ig := by simpa using hlg
                      rw [← hig]
                      rfl

/-- C3 amended witness: the deny-list content of the base configuration
is what the global matcher is built from. -/
theorem group_matcher_inline_rules_only_witness :
    ∃ content, envAll.fs (confBase.SetDefault).GFWList = some content ∧
      handlerBase.GFWMatcher = NewABPByText content :=
  (group_matcher_inline_rules_only envAll confBase handlerBase (by decide)).1

/-- C8: when the "clean" and "dirty" groups each produce at least one
caller (and the external reads and ipset creations succeed),
`NewHandler` succeeds even when some other group has zero callers, and
every configured group — the empty one included — is present in the
returned handler's group map. -/
theorem NewHandler_ok_with_empty_custom_group (env : Env) (conf : Conf)
    (hgfw : env.fs (conf.SetDefault).GFWList ≠ none)
    (hcnip : env.fs (conf.SetDefault).CNIP ≠ none)
    (hipset : ∀ p ∈ conf.Groups, p.2.IPSet ≠ "" → env.ipsetOK p.2.IPSet = true)
    (hclean : ∃ g, lookupG conf.Groups "clean" = some g ∧ g.GenCallers ≠ [])
    (hdirty : ∃ g, lookupG conf.Groups "dirty" = some g ∧ g.GenCallers ≠ []) :
    ∃ h, NewHandler env conf = Outcome.ok h ∧
      ∀ p ∈ conf.Groups, ∃ ig, lookupG h.Groups p.1 = some ig := by
  obtain ⟨gt, hgt⟩ : ∃ t, env.fs (conf.SetDefault).GFWList = some t := by
    cases hv : env.fs (conf.SetDefault).GFWList
    · exact absurd hv hgfw
    · exact ⟨_, rfl⟩
  obtain ⟨ct, hct⟩ : ∃ t, env.fs (conf.SetDefault).CNIP = some t := by
    cases hv : env.fs (conf.SetDefault).CNIP
    · exact absurd hv hcnip
    · exact ⟨_, rfl⟩
  obtain ⟨gc, hgc, hgcc⟩ := hclean
  obtain ⟨gd, hgd, hgdc⟩ := hdirty
  have hG : (conf.SetDefault).Groups = conf.Groups := rfl
  have h1 : NewABPByFile env.fs (conf.SetDefault).GFWList true = some (NewABPByText gt) := by
    unfold NewABPByFile
    rw [hgt]
    rfl
  have h2 : NewRamSetByFile env.fs (conf.SetDefault).CNIP = some ⟨ct⟩ := by
    unfold NewRamSetByFile
    rw [hct]
    rfl
  have hbuild : buildGroups env (conf.SetDefault).Groups =
      Except.ok (conf.Groups.map (fun p => (p.1, buildInboundGroup p.2))) := by
    rw [hG]
    exact buildGroups_ok env conf.Groups hipset
  have hlc : lookupG (conf.Groups.map (fun p => (p.1, buildInboundGroup p.2))) "clean" =
      some (buildInboundGroup gc) := by
    rw [lookupG_map, hgc]
    rfl
  have hld : lookupG (conf.Groups.map (fun p => (p.1, buildInboundGroup p.2))) "dirty" =
      some (buildInboundGroup gd) := by
    rw [lookupG_map, hgd]
    rfl
  have hnil : conf.Groups ≠ [] := lookupG_ne_nil hgc
  have hlen : ¬(conf.Groups.map (fun p => (p.1, buildInboundGroup p.2))).length ≤ 0 := by
    simp [Nat.le_zero, List.length_eq_zero, hnil]
  have hcc : ¬(buildInboundGroup gc).Callers.length ≤ 0 := by
    have hcal : (buildInboundGroup gc).Callers = gc.GenCallers := rfl
    simp [hcal, Nat.le_zero, List.length_eq_zero, hgcc]
  have hdd : ¬(buildInboundGroup gd).Callers.length ≤ 0 := by
    have hcal : (buildInboundGroup gd).Callers = gd.GenCallers := rfl
    simp [hcal, Nat.le_zero, List.length_eq_zero, hgdc]
  refine ⟨{ Listen := (conf.SetDefault).Listen, GFWMatcher := NewABPByText gt,
            CNIP := ⟨ct⟩, HostsReaders := (conf.SetDefault).GenHostsReader env.fs,
            Cache := (conf.SetDefault).GenCache,
            Groups := conf.Groups.map (fun p => (p.1, buildInboundGroup p.2)) }, ?_, ?_⟩
  · unfold NewHandler
    simp only [h1, h2, hbuild]
    rw [if_neg hlen]
    simp only [hlc]
    rw [if_neg hcc]
    simp only [hld]
    rw [if_neg hdd]
  · intro p hp
    have hpm : (p.1, buildInboundGroup p.2) ∈
        conf.Groups.map (fun q => (q.1, buildInboundGroup q.2)) :=
      List.mem_map.mpr ⟨p, hp, rfl⟩
    obtain ⟨w, hw⟩ := lookupG_mem hpm
    exact ⟨w, hw⟩

/-- C8 witness: the base configuration extended with a "work" group
that has zero callers still yields a handler containing "work". -/
theorem NewHandler_ok_with_empty_custom_group_witness :
    ∃ h, NewHandler envAll confWork = Outcome.ok h ∧
      ∀ p ∈ confWork.Groups, ∃ ig, lookupG h.Groups p.1 = some ig :=
  NewHandler_ok_with_empty_custom_group envAll confWork (by decide) (by decide)
    (by decide) ⟨gClean, by decide, by decide⟩ ⟨gDirty, by decide, by decide⟩

/-- C7: hosts sources are collected fault-tolerantly — a file reader is
produced exactly for the readable hosts files (an unreadable file is
skipped), the inline hosts map yields its text reader whenever
non-empty, the success/error/panic status of `NewHandler` is
independent of hosts-file readability (it depends on the environment
only through the deny-list read, the CN-IP read and ipset creation),
and the successful handler carries exactly the collected readers. -/
theorem gen_hosts_reader_skips_unreadable (fs : String → Option String) (conf : Conf) :
    (∀ f c, HostsReader.file f c ∈ conf.GenHostsReader fs ↔
        (f ∈ conf.HostsFiles ∧ fs f = some c)) ∧
    (conf.Hosts ≠ [] →
        NewReaderByText (goJoin "\n" (conf.Hosts.map (fun p => p.2 ++ " " ++ p.1))) ∈
          conf.GenHostsReader fs) ∧
    (∀ env env2 : Env,
        env2.fs (conf.SetDefault).GFWList = env.fs (conf.SetDefault).GFWList →
        env2.fs (conf.SetDefault).CNIP = env.fs (conf.SetDefault).CNIP →
        (∀ n, env2.ipsetOK n = env.ipsetOK n) →
        (NewHandler env2 conf).status = (NewHandler env conf).status) ∧
    (∀ env h, NewHandler env conf = Outcome.ok h →
        h.HostsReaders = (conf.SetDefault).GenHostsReader env.fs) := by
  refine ⟨?_, ?_, ?_, ?_⟩
  · intro f c
    unfold Conf.GenHostsReader NewReaderByFile
    constructor
    · intro hin
      rcases List.mem_append.mp hin with hl | hr
      · exfalso
        by_cases hh : 0 < (conf.Hosts.map (fun p => p.2 ++ " " ++ p.1)).length
        · rw [if_pos hh] at hl
          simp [NewReaderByText] at hl
        · rw [if_neg hh] at hl
          simp at hl
      · obtain ⟨fn, hfn, hmap⟩ := List.mem_filterMap.mp hr
        cases hv : fs fn with
        | none => rw [hv] at hmap; cases hmap
        | some x =>
          rw [hv] at hmap
          simp only [Option.map_some', Option.some.injEq, HostsReader.file.injEq] at hmap
          obtain ⟨rfl, rfl⟩ := hmap
          exact ⟨hfn, hv⟩
    · rintro ⟨hf, hc⟩
      refine List.mem_append.mpr (Or.inr ?_)
      refine List.mem_filterMap.mpr ⟨f, hf, ?_⟩
      rw [hc]
      rfl
  · intro hne
    unfold Conf.GenHostsReader
    refine List.mem_append.mpr (Or.inl ?_)
    have hh : 0 < (conf.Hosts.map (fun p => p.2 ++ " " ++ p.1)).length := by
      simp [List.length_pos, hne]
    rw [if_pos hh]
    exact List.mem_singleton.mpr rfl
  · intro env env2 h1 h2 h3
    have hb : buildGroups env2 (conf.SetDefault).Groups =
        buildGroups env (conf.SetDefault).Groups :=
      buildGroups_congr env2 env h3 _
    unfold NewHandler NewABPByFile NewRamSetByFile
    rw [h1, h2, hb]
    repeat first | rfl | split
  · intro env h hok
    unfold NewHandler at hok
    split at hok
    · cases hok
    · split at hok
      · cases hok
      · split at hok
        · cases hok
        · split at hok
          · cases hok
          · split at hok
            · cases hok
            · split at hok
              · cases hok
              · split at hok
                · cases hok
                · split at hok
                  · cases hok
                  · injection hok with hh
                    subst hh
                    rfl

/-- C7 witness: with `fsHosts`, the readable `goodhosts` file yields a
reader, the unreadable `/etc/hosts` yields none, and hosts-file
readability does not change the `NewHandler` status. -/
theorem gen_hosts_reader_skips_unreadable_witness :
    (HostsReader.file "goodhosts" "1.2.3.4 host" ∈ confHosts.GenHostsReader fsHosts) ∧
    (∀ c, HostsReader.file "/etc/hosts" c ∉ confHosts.GenHostsReader fsHosts) ∧
    (NewHandler envHostsB confHosts).status = (NewHandler envHostsA confHosts).status :=
  ⟨((gen_hosts_reader_skips_unreadable fsHosts confHosts).1 "goodhosts" "1.2.3.4 host").mpr
      ⟨by decide, by decide⟩,
   (fun c hc => by
     have h2 := (((gen_hosts_reader_skips_unreadable fsHosts confHosts).1 "/etc/hosts" c).mp
       hc).2
     rw [show fsHosts "/etc/hosts" = none from rfl] at h2
     cases h2),
   (gen_hosts_reader_skips_unreadable fsHosts confHosts).2.2.1 envHostsA envHostsB
     (by decide) (by decide) (fun n => rfl)⟩

end TsDns
